import Mathlib

/-!
Verification of the EBRD job scraper (`src/ebrd_scraper.py`).

The development shallowly embeds the two core components of the program —
the row extractor of `fetch_jobs_with_selenium` and the RSS builder
`create_rss_feed` — together with the deduplication loop of `main`.
Python strings are Lean `String`s, `str.startswith` is prefix testing on
the character list, BeautifulSoup tags are modelled by the data the code
reads from them (a row is its class marker, its anchors and the stripped
texts of its cells; a found cell is modelled by its stripped text), and
`xml.etree.ElementTree` trees are a small inductive of elements with tag,
attributes, optional text and children.  The clock read
`datetime.utcnow().strftime(...)` is modelled by a `now : String`
parameter, the run's current time.
-/

/-- `BASE_URL` constant of the script (line 21). -/
def BASE_URL : String := "https://jobs.ebrd.com"

/-- `SEARCH_URL` constant of the script (line 22). -/
def SEARCH_URL : String := BASE_URL ++ "/search/?q=&sortColumn=referencedate&sortDirection=desc"

/-- Python's `s.startswith(p)`: `p` is a prefix of `s`, on character lists. -/
def startswith (s p : String) : Bool := p.data.isPrefixOf s.data

/-- A scraped job record: the dict built at lines 127-132 of the script. -/
structure Job where
  title : String
  link : String
  location : String
  posting_date : String
deriving Repr, DecidableEq

/-- The URL-absolutisation of lines 106-109:
`if job_url.startswith('/'): job_url = BASE_URL + job_url
elif not job_url.startswith('http'): job_url = BASE_URL + '/' + job_url`. -/
def makeAbsolute (job_url : String) : String :=
  if startswith job_url "/" then BASE_URL ++ job_url
  else if ! startswith job_url "http" then BASE_URL ++ "/" ++ job_url
  else job_url

/-- An `<a>` element as the extractor reads it: `get_text(strip=True)` and
the optional `href` attribute (`link.get('href', '')` is `href.getD ""`). -/
structure Anchor where
  text : String
  href : Option String
deriving Repr, DecidableEq

/-- A `<tr>` element as the extractor reads it: whether its class attribute
carries `data-row`, its `<a>` descendants in document order, and the
stripped texts of its `<td>` descendants. -/
structure Row where
  isDataRow : Bool
  anchors : List Anchor
  cells : List String
deriving Repr, DecidableEq

/-- A `<table>` element as the script reads it: its `class` attribute
(`None` when absent) and its `<tr>` descendants. -/
structure Table where
  classes : Option (List String)
  rows : List Row
deriving Repr, DecidableEq

/-- `soup.find('table', {'class': 'searchResults'})` matches a table whose
class list contains `searchResults`. -/
def Table.isSearchResults (t : Table) : Bool :=
  match t.classes with
  | some cs => cs.contains "searchResults"
  | none => false

/-- Row selection of lines 86-91: rows of class `data-row`; if none,
fall back to all rows that contain a link. -/
def selectRows (trs : List Row) : List Row :=
  let rows := trs.filter (fun r => r.isDataRow)
  if rows.isEmpty then trs.filter (fun r => ! r.anchors.isEmpty) else rows

/-- Per-row extraction of lines 96-132: first anchor gives title and href,
the href is absolutised, cells 2 and 3 give location and posting date with
the `Not specified` default, and the row is skipped when title or URL is
empty (`if not title or not job_url or title == '': continue`). -/
def extractRow (row : Row) : Option Job :=
  match row.anchors.head? with
  | none => none
  | some link =>
    let title := link.text
    let job_url := makeAbsolute (link.href.getD "")
    let location := if row.cells.length ≥ 2 then row.cells.getD 1 "Not specified" else "Not specified"
    let posting_date := if row.cells.length ≥ 3 then row.cells.getD 2 "Not specified" else "Not specified"
    if title = "" ∨ job_url = "" ∨ title = "" then none
    else some ⟨title, job_url, location, posting_date⟩

/-- The whole per-table extraction loop (lines 86-136). -/
def extractJobs (trs : List Row) : List Job :=
  (selectRows trs).filterMap extractRow

/-- The diagnostic prints of lines 75-80, emitted when no `searchResults`
table is found: the error line, the count of tables, and (when any table
exists) their class lists. -/
def noTableLogs (tables : List Table) : List String :=
  ["ERROR: Could not find job listings table",
   "Found " ++ toString tables.length ++ " table(s) total"] ++
  (if tables.isEmpty then [] else
    ["Table classes found: " ++ toString (tables.map Table.classes)])

/-- Table lookup and extraction of lines 72-136, on the list of tables of
the parsed document: the extracted jobs together with the diagnostic log. -/
def fetch_jobs (tables : List Table) : List Job × List String :=
  match tables.find? Table.isSearchResults with
  | none => ([], noTableLogs tables)
  | some table => (extractJobs table.rows, ["[OK] Job table found, parsing jobs..."])

/-- The deduplication loop of `main` (lines 210-215), with the `seen_links`
set as a list of links. -/
def dedupAux : List Job → List String → List Job
  | [], _ => []
  | job :: rest, seen =>
    if job.link ∈ seen then dedupAux rest seen
    else job :: dedupAux rest (job.link :: seen)

/-- `unique_jobs` as computed by `main`: first-seen record per link. -/
def dedupByLink (jobs : List Job) : List Job := dedupAux jobs []

/-- An `xml.etree.ElementTree` element: tag, attributes, optional text,
children. -/
inductive XmlElem where
  | mk : String → List (String × String) → Option String → List XmlElem → XmlElem

/-- Tag of an element. -/
def XmlElem.tag : XmlElem → String
  | .mk t _ _ _ => t

/-- Attribute list of an element. -/
def XmlElem.attrs : XmlElem → List (String × String)
  | .mk _ a _ _ => a

/-- Text of an element. -/
def XmlElem.text : XmlElem → Option String
  | .mk _ _ x _ => x

/-- Children of an element. -/
def XmlElem.children : XmlElem → List XmlElem
  | .mk _ _ _ c => c

/-- The `<item>` element built for one job by lines 167-186: title, link,
the two-line description, `pubDate` (the run's current time) and the
permalink `guid` equal to the link. -/
def itemOf (now : String) (job : Job) : XmlElem :=
  .mk "item" [] none
    [.mk "title" [] (some job.title) [],
     .mk "link" [] (some job.link) [],
     .mk "description" []
       (some ("Location: " ++ job.location ++ "\nPosting Date: " ++ job.posting_date)) [],
     .mk "pubDate" [] (some now) [],
     .mk "guid" [("isPermaLink", "true")] (some job.link) []]

/-- `create_rss_feed` (lines 144-188): the `<rss>` root with one channel
holding the metadata children in source order followed by one item per
job. -/
def create_rss_feed (now : String) (jobs : List Job) : XmlElem :=
  .mk "rss" [("version", "2.0"), ("xmlns:atom", "http://www.w3.org/2005/Atom")] none
    [.mk "channel" [] none
      ([.mk "title" [] (some "EBRD Job Vacancies") [],
        .mk "link" [] (some SEARCH_URL) [],
        .mk "description" []
          (some "Current job opportunities at the European Bank for Reconstruction and Development") [],
        .mk "language" [] (some "en") [],
        .mk "lastBuildDate" [] (some now) [],
        .mk "atom:link"
          [("href", "https://cinfoposte.github.io/ebrd-jobs/ebrd_jobs.xml"),
           ("rel", "self"), ("type", "application/rss+xml")] none []] ++
       jobs.map (itemOf now))]

/-- The channel child of a feed document. -/
def channelOf (feed : XmlElem) : Option XmlElem :=
  feed.children.find? (fun c => c.tag == "channel")

/-- The item elements of a feed document, in document order. -/
def rssItems (feed : XmlElem) : List XmlElem :=
  match channelOf feed with
  | none => []
  | some ch => ch.children.filter (fun c => c.tag == "item")

/-- Text of the first child of `e` with tag `t`. -/
def childText (e : XmlElem) (t : String) : Option String :=
  (e.children.find? (fun c => c.tag == t)).bind XmlElem.text

/-- Structural RSS 2.0 well-formedness, from the spec's words ("well-formed
channel document"): an `rss` root carrying `version="2.0"` with a channel
child that has `title`, `link` and `description` children. -/
def wellFormedRSS (e : XmlElem) : Bool :=
  e.tag == "rss" && e.attrs.contains ("version", "2.0") &&
  match channelOf e with
  | none => false
  | some ch =>
    ((ch.children.find? (fun c => c.tag == "title")).isSome &&
     (ch.children.find? (fun c => c.tag == "link")).isSome &&
     (ch.children.find? (fun c => c.tag == "description")).isSome)

/-- The effect of `main` (lines 196-231) as a function of the extracted
jobs and the run time: `none` models the early `return` at lines 205-207
("No jobs found!", nothing written, an existing `ebrd_jobs.xml` left
untouched); `some doc` models writing the feed built from the
deduplicated jobs. -/
def main_run (now : String) (jobs : List Job) : Option XmlElem :=
  if jobs.isEmpty then none
  else some (create_rss_feed now (dedupByLink jobs))

/-- A demonstration record list with a duplicated link, for witnesses. -/
def demoJobs : List Job :=
  [⟨"Analyst", "https://x/a", "London", "2024-01-01"⟩,
   ⟨"Counsel", "https://x/b", "Paris", "2024-01-02"⟩,
   ⟨"Analyst (repost)", "https://x/a", "London", "2024-01-03"⟩]

/-! Helper lemmas about `startswith` and `makeAbsolute`. -/

theorem startswith_base_http (s : String) : startswith (BASE_URL ++ s) "http" = true := by
  unfold startswith
  rw [String.data_append, List.isPrefixOf_iff_prefix]
  exact List.IsPrefix.trans (by decide) (List.prefix_append BASE_URL.data s.data)

theorem startswith_http_not_slash (s : String) (h : startswith s "http" = true) :
    startswith s "/" = false := by
  unfold startswith at h ⊢
  rw [List.isPrefixOf_iff_prefix] at h
  obtain ⟨t, ht⟩ := h
  rw [← ht]
  simp [List.isPrefixOf]

theorem startswith_base_not_slash (s : String) : startswith (BASE_URL ++ s) "/" = false :=
  startswith_http_not_slash _ (startswith_base_http s)

theorem makeAbsolute_of_http (s : String) (h : startswith s "http" = true) :
    makeAbsolute s = s := by
  unfold makeAbsolute
  rw [startswith_http_not_slash s h, h]
  simp

theorem makeAbsolute_startswith_http (s : String) :
    startswith (makeAbsolute s) "http" = true := by
  unfold makeAbsolute
  cases h1 : startswith s "/"
  · cases h2 : startswith s "http"
    · simp only [h1, h2, Bool.not_false, if_true, Bool.false_eq_true, if_false]
      rw [String.append_assoc]
      exact startswith_base_http ("/" ++ s)
    · simp [h1, h2]
  · simp only [h1, if_true]
    exact startswith_base_http s

theorem makeAbsolute_idem (s : String) : makeAbsolute (makeAbsolute s) = makeAbsolute s :=
  makeAbsolute_of_http _ (makeAbsolute_startswith_http s)

/-! Helper lemmas about the deduplication loop. -/

theorem dedupAux_sublist (l : List Job) : ∀ seen, (dedupAux l seen).Sublist l := by
  induction l with
  | nil => intro seen; simp [dedupAux]
  | cons job rest ih =>
    intro seen
    unfold dedupAux
    by_cases h : job.link ∈ seen
    · rw [if_pos h]
      exact (ih seen).cons job
    · rw [if_neg h]
      exact (ih _).cons₂ job

theorem countP_dedupAux_of_mem (l : List Job) : ∀ seen lk, lk ∈ seen →
    (dedupAux l seen).countP (fun r => r.link == lk) = 0 := by
  induction l with
  | nil => intro seen lk _; simp [dedupAux]
  | cons job rest ih =>
    intro seen lk hmem
    unfold dedupAux
    by_cases h : job.link ∈ seen
    · rw [if_pos h]
      exact ih seen lk hmem
    · rw [if_neg h]
      have hne : (job.link == lk) = false := by
        refine beq_eq_false_iff_ne.mpr ?_
        intro he
        exact h (he ▸ hmem)
      rw [List.countP_cons, hne]
      simp only [if_false, Nat.add_zero, Bool.false_eq_true]
      exact ih _ lk (List.mem_cons_of_mem _ hmem)

theorem countP_dedupAux_of_not_mem (l : List Job) : ∀ seen lk, lk ∉ seen →
    (dedupAux l seen).countP (fun r => r.link == lk) =
      (if l.any (fun r => r.link == lk) then 1 else 0) := by
  induction l with
  | nil => intro seen lk _; simp [dedupAux]
  | cons job rest ih =>
    intro seen lk hmem
    unfold dedupAux
    by_cases h : job.link ∈ seen
    · have hne : (job.link == lk) = false := by
        refine beq_eq_false_iff_ne.mpr ?_
        intro he
        exact hmem (he ▸ h)
      rw [if_pos h, List.any_cons, hne]
      simp only [Bool.false_or]
      exact ih seen lk hmem
    · rw [if_neg h]
      by_cases he : job.link = lk
      · have heq : (job.link == lk) = true := beq_iff_eq.mpr he
        rw [List.countP_cons, heq, List.any_cons, heq]
        have h0 : (dedupAux rest (job.link :: seen)).countP (fun r => r.link == lk) = 0 :=
          countP_dedupAux_of_mem rest _ lk (he ▸ List.mem_cons_self _ _)
        rw [h0]
        simp
      · have hne : (job.link == lk) = false := beq_eq_false_iff_ne.mpr he
        rw [List.countP_cons, hne, List.any_cons, hne]
        simp only [if_false, Nat.add_zero, Bool.false_or, Bool.false_eq_true]
        refine ih _ lk ?_
        intro hc
        rcases List.mem_cons.mp hc with h1 | h2
        · exact he h1.symm
        · exact hmem h2

theorem find?_dedupAux (l : List Job) : ∀ seen lk, lk ∉ seen →
    (dedupAux l seen).find? (fun r => r.link == lk) = l.find? (fun r => r.link == lk) := by
  induction l with
  | nil => intro seen lk _; simp [dedupAux]
  | cons job rest ih =>
    intro seen lk hmem
    unfold dedupAux
    by_cases h : job.link ∈ seen
    · have hne : (job.link == lk) = false := by
        refine beq_eq_false_iff_ne.mpr ?_
        intro he
        exact hmem (he ▸ h)
      rw [if_pos h, List.find?_cons_of_neg _ (by simp [hne]), ih seen lk hmem]
    · rw [if_neg h]
      by_cases he : job.link = lk
      · have heq : (job.link == lk) = true := beq_iff_eq.mpr he
        rw [List.find?_cons_of_pos _ (by simp [heq]), List.find?_cons_of_pos _ (by simp [heq])]
      · have hne : (job.link == lk) = false := beq_eq_false_iff_ne.mpr he
        rw [List.find?_cons_of_neg _ (by simp [hne]), List.find?_cons_of_neg _ (by simp [hne])]
        refine ih _ lk ?_
        intro hc
        rcases List.mem_cons.mp hc with h1 | h2
        · exact he h1.symm
        · exact hmem h2

theorem countP_dedupByLink_le_one (jobs : List Job) (lk : String) :
    (dedupByLink jobs).countP (fun r => r.link == lk) ≤ 1 := by
  unfold dedupByLink
  rw [countP_dedupAux_of_not_mem jobs [] lk (by simp)]
  split <;> simp

/-! Claim theorems. -/

/-- C3: link canonicalization follows the stated rule — an href with a
leading slash gets the base origin prefixed; otherwise an href that is not
already absolute (does not start with `http`) gets the origin and a slash
prefixed; an already-absolute href is returned unchanged; and `/jobs/123`
canonicalizes to `https://jobs.ebrd.com/jobs/123`. -/
theorem claim_C3_link_canonicalization (href : String) :
    (startswith href "/" = true → makeAbsolute href = BASE_URL ++ href) ∧
    (startswith href "/" = false → startswith href "http" = false →
      makeAbsolute href = BASE_URL ++ "/" ++ href) ∧
    (startswith href "http" = true → makeAbsolute href = href) ∧
    makeAbsolute "/jobs/123" = "https://jobs.ebrd.com/jobs/123" := by
  refine ⟨fun h => ?_, fun h1 h2 => ?_, fun h => makeAbsolute_of_http href h, by decide⟩
  · unfold makeAbsolute
    rw [h]
    simp
  · unfold makeAbsolute
    rw [h1, h2]
    simp

/-- Witness for C3 at href `/jobs/123`. -/
theorem claim_C3_witness :
    startswith "/jobs/123" "/" = true ∧
    makeAbsolute "/jobs/123" = BASE_URL ++ "/jobs/123" :=
  ⟨by decide, (claim_C3_link_canonicalization "/jobs/123").1 (by decide)⟩

/-- C7: link canonicalization is idempotent, and an already-absolute URL
(one starting with `http`) is returned unchanged. -/
theorem claim_C7_idempotent (href : String) :
    makeAbsolute (makeAbsolute href) = makeAbsolute href ∧
    (startswith href "http" = true → makeAbsolute href = href) :=
  ⟨makeAbsolute_idem href, fun h => makeAbsolute_of_http href h⟩

/-- Witness for C7 at hrefs `jobs/123` and `https://x/a`. -/
theorem claim_C7_witness :
    makeAbsolute (makeAbsolute "jobs/123") = makeAbsolute "jobs/123" ∧
    makeAbsolute "https://x/a" = "https://x/a" :=
  ⟨(claim_C7_idempotent "jobs/123").1, (claim_C7_idempotent "https://x/a").2 (by decide)⟩

/-- C2: deduplication keys on the link field only — when the input holds
two records with equal link, the output holds exactly one record with that
link, namely the first occurrence in original order, and the kept records
stay in original relative order (the output is a sublist of the input). -/
theorem claim_C2_dedup_first_occurrence (jobs : List Job) (i j : Nat)
    (hi : i < jobs.length) (hj : j < jobs.length) (hij : i < j)
    (hl : (jobs.get ⟨i, hi⟩).link = (jobs.get ⟨j, hj⟩).link) :
    (dedupByLink jobs).countP (fun r => r.link == (jobs.get ⟨i, hi⟩).link) = 1 ∧
    (dedupByLink jobs).find? (fun r => r.link == (jobs.get ⟨i, hi⟩).link) =
      jobs.find? (fun r => r.link == (jobs.get ⟨i, hi⟩).link) ∧
    (dedupByLink jobs).Sublist jobs := by
  refine ⟨?_, find?_dedupAux jobs [] _ (by simp), dedupAux_sublist jobs []⟩
  unfold dedupByLink
  rw [countP_dedupAux_of_not_mem jobs [] _ (by simp)]
  have hany : jobs.any (fun r => r.link == (jobs.get ⟨i, hi⟩).link) = true := by
    rw [List.any_eq_true]
    exact ⟨jobs.get ⟨i, hi⟩, List.get_mem jobs i hi, by simp⟩
  rw [hany]
  rfl

/-- Witness for C2 on a three-record list whose first and third records
share the link `https://x/a`. -/
theorem claim_C2_witness :
    (demoJobs.get ⟨0, by decide⟩).link = (demoJobs.get ⟨2, by decide⟩).link ∧
    (dedupByLink demoJobs).countP (fun r => r.link == "https://x/a") = 1 ∧
    (dedupByLink demoJobs).Sublist demoJobs := by
  have h := claim_C2_dedup_first_occurrence demoJobs 0 2 (by decide) (by decide)
    (by decide) (by decide)
  exact ⟨by decide, h.1, h.2.2⟩

/-! Helper: the items of a built feed are exactly the mapped records. -/

theorem rssItems_create (now : String) (jobs : List Job) :
    rssItems (create_rss_feed now jobs) = jobs.map (itemOf now) := by
  have h1 : rssItems (create_rss_feed now jobs) =
      (jobs.map (itemOf now)).filter (fun c => c.tag == "item") := rfl
  rw [h1, List.filter_map]
  have h2 : ((fun c => XmlElem.tag c == "item") ∘ itemOf now) = fun _ => true := rfl
  rw [h2, List.filter_true]

/-- C1: the built feed holds exactly one item per input record, in input
order; the `i`-th item's title, link and description are the `i`-th
record's fields (the description being the whitespace-exact two-line
string), its guid text equals its link text, and the guid is flagged as a
permalink. -/
theorem claim_C1_items (now : String) (jobs : List Job) (i : Nat) (h : i < jobs.length) :
    (rssItems (create_rss_feed now jobs)).length = jobs.length ∧
    ∃ it, (rssItems (create_rss_feed now jobs))[i]? = some it ∧
      childText it "title" = some jobs[i].title ∧
      childText it "link" = some jobs[i].link ∧
      childText it "description" =
        some ("Location: " ++ jobs[i].location ++ "\nPosting Date: " ++ jobs[i].posting_date) ∧
      childText it "guid" = childText it "link" ∧
      ∃ g, it.children.find? (fun c => c.tag == "guid") = some g ∧
        g.attrs = [("isPermaLink", "true")] := by
  rw [rssItems_create]
  refine ⟨List.length_map _ _, itemOf now jobs[i], ?_, rfl, rfl, rfl, rfl, ?_⟩
  · rw [List.getElem?_map, List.getElem?_eq_getElem h]
    rfl
  · exact ⟨.mk "guid" [("isPermaLink", "true")] (some jobs[i].link) [], rfl, rfl⟩

/-- Witness for C1: the first item of the feed built from the
three-record demonstration list. -/
theorem claim_C1_witness :
    (rssItems (create_rss_feed "Mon, 01 Jan 2024 00:00:00 GMT" demoJobs)).length =
      demoJobs.length ∧
    ∃ it, (rssItems (create_rss_feed "Mon, 01 Jan 2024 00:00:00 GMT" demoJobs))[0]? = some it ∧
      childText it "title" = some "Analyst" ∧
      childText it "link" = some "https://x/a" ∧
      childText it "description" = some "Location: London\nPosting Date: 2024-01-01" ∧
      childText it "guid" = childText it "link" ∧
      ∃ g, it.children.find? (fun c => c.tag == "guid") = some g ∧
        g.attrs = [("isPermaLink", "true")] :=
  claim_C1_items "Mon, 01 Jan 2024 00:00:00 GMT" demoJobs 0 (by decide)

/-- C5: the Feed Builder, as a function of its record list and the run
time, stamps the channel's `lastBuildDate` and every item's `pubDate` with
that one run time. -/
theorem claim_C5_single_run_time (now : String) (jobs : List Job) (it : XmlElem)
    (hit : it ∈ rssItems (create_rss_feed now jobs)) :
    ((channelOf (create_rss_feed now jobs)).bind (fun ch => childText ch "lastBuildDate") =
      some now) ∧
    childText it "pubDate" = some now := by
  refine ⟨rfl, ?_⟩
  rw [rssItems_create] at hit
  obtain ⟨j, hj, rfl⟩ := List.mem_map.mp hit
  rfl

/-- Witness for C5 on the demonstration list's first item. -/
theorem claim_C5_witness :
    ((channelOf (create_rss_feed "Mon, 01 Jan 2024 00:00:00 GMT" demoJobs)).bind
      (fun ch => childText ch "lastBuildDate") = some "Mon, 01 Jan 2024 00:00:00 GMT") ∧
    childText (itemOf "Mon, 01 Jan 2024 00:00:00 GMT"
      ⟨"Analyst", "https://x/a", "London", "2024-01-01"⟩) "pubDate" =
      some "Mon, 01 Jan 2024 00:00:00 GMT" :=
  claim_C5_single_run_time "Mon, 01 Jan 2024 00:00:00 GMT" demoJobs _ (List.Mem.head _)

/-- A demonstration row list: one data row carrying a titled link. -/
def demoRows : List Row :=
  [⟨true, [⟨"Analyst", some "/jobs/123"⟩], ["x", "London", "2024-01-01"]⟩]

/-- `extractRow` on a row without hyperlink: skipped. -/
theorem extractRow_nil (d : Bool) (cs : List String) :
    extractRow ⟨d, [], cs⟩ = none := rfl

/-- `extractRow` on a row whose first hyperlink is `a`, unfolded. -/
theorem extractRow_cons (d : Bool) (a : Anchor) (as : List Anchor) (cs : List String) :
    extractRow ⟨d, a :: as, cs⟩ =
      (if a.text = "" ∨ makeAbsolute (a.href.getD "") = "" ∨ a.text = "" then none
       else some ⟨a.text, makeAbsolute (a.href.getD ""),
         (if cs.length ≥ 2 then cs.getD 1 "Not specified" else "Not specified"),
         (if cs.length ≥ 3 then cs.getD 2 "Not specified" else "Not specified")⟩) := rfl

/-- C4: every record that survives extraction has a non-empty title and a
non-empty link, and a row whose first hyperlink has an empty trimmed text
is discarded. -/
theorem claim_C4_surviving_records_nonempty (trs : List Row) (jb : Job)
    (hj : jb ∈ extractJobs trs) (r : Row) (a : Anchor)
    (ha : r.anchors.head? = some a) (ht : a.text = "") :
    (jb.title ≠ "" ∧ jb.link ≠ "") ∧ extractRow r = none := by
  constructor
  · obtain ⟨r2, hr2, hex⟩ := List.mem_filterMap.mp hj
    obtain ⟨d, anchors, cs⟩ := r2
    cases anchors with
    | nil =>
      rw [extractRow_nil] at hex
      exact absurd hex (by simp)
    | cons a0 rest =>
      rw [extractRow_cons] at hex
      split at hex
      · exact absurd hex (by simp)
      · rename_i hcond
        push_neg at hcond
        rw [Option.some.injEq] at hex
        rw [← hex]
        exact ⟨hcond.1, hcond.2.1⟩
  · obtain ⟨d, anchors, cs⟩ := r
    cases anchors with
    | nil => exact extractRow_nil d cs
    | cons a0 rest =>
      obtain rfl : a0 = a := by simpa using ha
      rw [extractRow_cons]
      exact if_pos (Or.inl ht)

/-- Witness for C4: the record extracted from the demonstration row, and a
row whose first link has empty text. -/
theorem claim_C4_witness :
    ((Job.mk "Analyst" "https://jobs.ebrd.com/jobs/123" "London" "2024-01-01").title ≠ "" ∧
     (Job.mk "Analyst" "https://jobs.ebrd.com/jobs/123" "London" "2024-01-01").link ≠ "") ∧
    extractRow ⟨true, [⟨"", some "/jobs/9"⟩], []⟩ = none :=
  claim_C4_surviving_records_nonempty demoRows
    ⟨"Analyst", "https://jobs.ebrd.com/jobs/123", "London", "2024-01-01"⟩ (by decide)
    ⟨true, [⟨"", some "/jobs/9"⟩], []⟩ ⟨"", some "/jobs/9"⟩ rfl rfl

/-- C6: with zero extracted jobs the entry point returns without building
or writing a feed (`main_run` yields `none`, modelling the untouched
output file), while the Feed Builder itself on an empty record list still
yields a zero-item, structurally well-formed channel document. -/
theorem claim_C6_zero_jobs (now : String) (jobs : List Job) (h : jobs = []) :
    main_run now jobs = none ∧
    rssItems (create_rss_feed now []) = [] ∧
    wellFormedRSS (create_rss_feed now []) = true := by
  refine ⟨?_, rfl, rfl⟩
  rw [h]
  rfl

/-- Witness for C6 at the empty job list. -/
theorem claim_C6_witness :
    main_run "Mon, 01 Jan 2024 00:00:00 GMT" ([] : List Job) = none ∧
    rssItems (create_rss_feed "Mon, 01 Jan 2024 00:00:00 GMT" []) = [] ∧
    wellFormedRSS (create_rss_feed "Mon, 01 Jan 2024 00:00:00 GMT" []) = true :=
  claim_C6_zero_jobs "Mon, 01 Jan 2024 00:00:00 GMT" [] rfl

/-- C8: a row containing no hyperlink is never converted into a record —
the per-row extraction skips it, and the fallback row selector (rows that
contain a link) excludes it. -/
theorem claim_C8_row_without_link (trs : List Row) (r : Row) (h : r.anchors = []) :
    extractRow r = none ∧ r ∉ trs.filter (fun x => ! x.anchors.isEmpty) := by
  constructor
  · unfold extractRow
    rw [h]
    rfl
  · intro hmem
    rw [List.mem_filter] at hmem
    simp [h] at hmem

/-- Witness for C8 at a linkless row. -/
theorem claim_C8_witness :
    extractRow ⟨true, [], []⟩ = none ∧
    (⟨true, [], []⟩ : Row) ∉ demoRows.filter (fun x => ! x.anchors.isEmpty) :=
  claim_C8_row_without_link demoRows ⟨true, [], []⟩ rfl

/-- C9: when no table carries the `searchResults` class marker, extraction
returns an empty job list (no failure) and the diagnostic log reports the
count of the tables that were found and, when any exist, their classes. -/
theorem claim_C9_missing_table (tables : List Table)
    (h : tables.find? Table.isSearchResults = none) :
    (fetch_jobs tables).1 = [] ∧
    ("Found " ++ toString tables.length ++ " table(s) total") ∈ (fetch_jobs tables).2 ∧
    (tables ≠ [] →
      ("Table classes found: " ++ toString (tables.map Table.classes)) ∈
        (fetch_jobs tables).2) := by
  unfold fetch_jobs
  rw [h]
  refine ⟨rfl, ?_, ?_⟩
  · unfold noTableLogs
    exact List.mem_append_left _ (by simp)
  · intro hne
    unfold noTableLogs
    rw [if_neg (fun hc => hne (by simpa using hc))]
    simp

/-- Witness for C9 at a one-table document without the marker class. -/
theorem claim_C9_witness :
    (fetch_jobs [⟨some ["foo"], []⟩]).1 = [] ∧
    ("Table classes found: " ++
      toString (([⟨some ["foo"], []⟩] : List Table).map Table.classes)) ∈
      (fetch_jobs [⟨some ["foo"], []⟩]).2 := by
  have h := claim_C9_missing_table [⟨some ["foo"], []⟩] (by decide)
  exact ⟨h.1, h.2.2 (by decide)⟩

/-- C10: a row whose first hyperlink has non-empty text but no (or an
empty) href is not discarded — it yields a record whose link is the base
origin followed by a slash — and deduplicated output never holds more than
one record with that link. -/
theorem claim_C10_missing_href (row : Row) (a : Anchor)
    (ha : row.anchors.head? = some a) (ht : a.text ≠ "") (hh : a.href.getD "" = "") :
    (∃ jb, extractRow row = some jb ∧ jb.title = a.text ∧
      jb.link = "https://jobs.ebrd.com/") ∧
    ∀ jobs : List Job,
      (dedupByLink jobs).countP (fun r => r.link == "https://jobs.ebrd.com/") ≤ 1 := by
  constructor
  · obtain ⟨d, anchors, cs⟩ := row
    cases anchors with
    | nil => exact absurd ha (by simp)
    | cons a0 rest =>
      obtain rfl : a0 = a := by simpa using ha
      rw [extractRow_cons, hh]
      rw [show makeAbsolute "" = "https://jobs.ebrd.com/" from by decide]
      refine ⟨⟨a0.text, "https://jobs.ebrd.com/",
        (if cs.length ≥ 2 then cs.getD 1 "Not specified" else "Not specified"),
        (if cs.length ≥ 3 then cs.getD 2 "Not specified" else "Not specified")⟩, ?_, rfl, rfl⟩
      have hc : ¬(a0.text = "" ∨ ("https://jobs.ebrd.com/" : String) = "" ∨ a0.text = "") := by
        push_neg
        exact ⟨ht, by decide, ht⟩
      exact if_neg hc
  · intro jobs
    exact countP_dedupByLink_le_one jobs _

/-- Witness for C10 at a row with a titled, hrefless link. -/
theorem claim_C10_witness :
    (∃ jb, extractRow ⟨true, [⟨"Analyst", none⟩], []⟩ = some jb ∧
      jb.title = "Analyst" ∧ jb.link = "https://jobs.ebrd.com/") ∧
    (dedupByLink demoJobs).countP (fun r => r.link == "https://jobs.ebrd.com/") ≤ 1 := by
  have h := claim_C10_missing_href ⟨true, [⟨"Analyst", none⟩], []⟩ ⟨"Analyst", none⟩
    rfl (by decide) rfl
  exact ⟨h.1, h.2 demoJobs⟩
